import Mathlib

/-!
Verification of the sentiment aggregation and negative-post classification
core of the Telegram news analyzer (src/sentiment_analyzer.py, src/config.py).

Strings are modelled as `List Char`; the ASCII fragment of the Python regex
character classes is modelled exactly.  Scores are modelled over `ℚ` (the
spec's formulas are statements of exact arithmetic).  The external text
classifier (transformer pipeline / TextBlob fallback) is an injected
parameter `model : List Char → Scores`, mirroring the spec's
TextSentimentModel collaborator.
-/

attribute [local semireducible] Rat.mul Rat.inv Rat.add Rat.sub

namespace NewsAnalyzer

/-- Python `\s` over ASCII: space, tab, newline, carriage return,
vertical tab, form feed. -/
def isPySpace (c : Char) : Bool :=
  c = ' ' || c = '\t' || c = '\n' || c = '\r' || c = '\x0b' || c = '\x0c'

/-- Python `\w` over ASCII: alphanumerics and underscore. -/
def isWordChar (c : Char) : Bool :=
  c.isAlphanum || c = '_'

/-- The character class of the URL regex body in `clean_text`
(src/sentiment_analyzer.py line 48):
`[a-zA-Z] | [0-9] | [$-_@.&+] | [!*\(),] | %[0-9a-fA-F]{2}`.
`[$-_]` is the ASCII range 0x24..0x5F (which contains `A-Z`, `0-9`,
`*`, `\`, `(`, `)`, `,`, `%` and the hex digits), so the union is
lowercase letters, the range 0x24..0x5F, and `!`. -/
def isUrlChar (c : Char) : Bool :=
  ('a' ≤ c && c ≤ 'z') || (0x24 ≤ c.toNat && c.toNat ≤ 0x5F) || c = '!'

/-- Attempt to match the URL regex `http[s]?://(...)+` at the head of the
list; on success return the remainder after the match. -/
def matchUrl (l : List Char) : Option (List Char) :=
  match l with
  | 'h' :: 't' :: 't' :: 'p' :: rest =>
    match rest with
    | 's' :: ':' :: '/' :: '/' :: rest2 =>
      let body := rest2.takeWhile isUrlChar
      if body.isEmpty then none else some (rest2.drop body.length)
    | ':' :: '/' :: '/' :: rest2 =>
      let body := rest2.takeWhile isUrlChar
      if body.isEmpty then none else some (rest2.drop body.length)
    | _ => none
  | _ => none

/-- Attempt to match `@\w+` at the head of the list. -/
def matchMention (l : List Char) : Option (List Char) :=
  match l with
  | '@' :: cs =>
    let body := cs.takeWhile isWordChar
    if body.isEmpty then none else some (cs.drop body.length)
  | _ => none

/-- Attempt to match `#\w+` at the head of the list. -/
def matchHash (l : List Char) : Option (List Char) :=
  match l with
  | '#' :: cs =>
    let body := cs.takeWhile isWordChar
    if body.isEmpty then none else some (cs.drop body.length)
  | _ => none

/-- `re.sub` scan for one pattern: at each position, if the pattern matches,
drop the matched span and continue after it, otherwise keep the character.
Fuel (initially the length of the list) makes the recursion structural; a
successful match always consumes at least one character, so the fuel never
runs out before the list does. -/
def subPatternAux (pat : List Char → Option (List Char)) :
    Nat → List Char → List Char
  | 0, l => l
  | _ + 1, [] => []
  | fuel + 1, c :: cs =>
    match pat (c :: cs) with
    | some rest => subPatternAux pat fuel rest
    | none => c :: subPatternAux pat fuel cs

def subUrl (l : List Char) : List Char := subPatternAux matchUrl l.length l

def subMention (l : List Char) : List Char := subPatternAux matchMention l.length l

def subHash (l : List Char) : List Char := subPatternAux matchHash l.length l

/-- Does `pat` match at some position of the list? -/
def hasPat (pat : List Char → Option (List Char)) : List Char → Bool
  | [] => false
  | c :: cs => (pat (c :: cs)).isSome || hasPat pat cs

/-- Does the URL pattern match at some position? -/
def hasUrl (l : List Char) : Bool := hasPat matchUrl l

/-- Does the mention pattern match at some position? -/
def hasMention (l : List Char) : Bool := hasPat matchMention l

/-- Does the hashtag pattern match at some position? -/
def hasHash (l : List Char) : Bool := hasPat matchHash l

/-- `re.sub(r'\s+', ' ', text)`: replace every maximal whitespace run by a
single space.  The boolean flag records whether we are inside a run whose
replacement space has already been emitted. -/
def collapseAux : Bool → List Char → List Char
  | _, [] => []
  | inRun, c :: cs =>
    if isPySpace c then
      if inRun then collapseAux true cs
      else ' ' :: collapseAux true cs
    else c :: collapseAux false cs

def collapseWS (l : List Char) : List Char := collapseAux false l

/-- Drop a maximal trailing run of whitespace. -/
def dropTrailing : List Char → List Char
  | [] => []
  | c :: cs =>
    if (dropTrailing cs).isEmpty && isPySpace c then [] else c :: dropTrailing cs

/-- Python `str.strip()` (ASCII whitespace). -/
def stripWS (l : List Char) : List Char :=
  dropTrailing (l.dropWhile isPySpace)

/-- `SentimentAnalyzer.clean_text` (src/sentiment_analyzer.py lines 42-55):
empty input short-circuits to empty; otherwise remove URLs, then
`@`-mentions, then `#`-hashtags, collapse whitespace runs to single
spaces, and strip. -/
def clean_text (text : List Char) : List Char :=
  if text.isEmpty then []
  else stripWS (collapseWS (subHash (subMention (subUrl text))))

/-- A probability-style distribution over the three sentiment categories
(the dicts `{'positive': _, 'negative': _, 'neutral': _}` of the source). -/
structure Scores where
  positive : ℚ
  negative : ℚ
  neutral : ℚ
deriving DecidableEq, Repr

/-- A comment as consumed by the analyzer: only its `text` field is read. -/
structure Comment where
  text : List Char
deriving DecidableEq, Repr

/-- A post (message) as consumed by the analyzer: its own text plus the
ordered list of its comments. -/
structure Message where
  text : List Char
  comments : List Comment
deriving DecidableEq, Repr

/-- `SentimentAnalyzer.analyze_sentiment` (lines 100-110): clean the text;
empty cleaned text is neutral; otherwise delegate to the underlying
classifier (transformer pipeline or TextBlob fallback), abstracted here as
the injected `model`. -/
def analyze_sentiment (model : List Char → Scores) (text : List Char) : Scores :=
  let cleaned := clean_text text
  if cleaned.isEmpty then ⟨0, 0, 1⟩ else model cleaned

/-- `SentimentAnalyzer.get_dominant_sentiment` (lines 112-114):
`max(sentiment_scores.items(), key=lambda x: x[1])[0]` over the insertion
order positive, negative, neutral; Python `max` keeps the first item on
ties (it replaces the running best only on strict increase). -/
def get_dominant_sentiment (s : Scores) : String :=
  let best1 : String × ℚ := ("positive", s.positive)
  let best2 : String × ℚ := if best1.2 < s.negative then ("negative", s.negative) else best1
  let best3 : String × ℚ := if best2.2 < s.neutral then ("neutral", s.neutral) else best2
  best3.1

/-- `SentimentAnalyzer.is_negative` (lines 116-118):
`scores['negative'] > max(scores['positive'], scores['neutral'])`. -/
def is_negative (s : Scores) : Bool :=
  decide (max s.positive s.neutral < s.negative)

/-- The per-comment sentiment results collected in the loop of
`determine_post_sentiment_from_comments` (lines 143-154). -/
def comment_sentiments (model : List Char → Scores) (comments : List Comment) :
    List Scores :=
  comments.map (fun c => analyze_sentiment model c.text)

/-- `negative_count` of lines 147-149: how many comments are individually
negative. -/
def negative_count (model : List Char → Scores) (comments : List Comment) : Nat :=
  (comment_sentiments model comments).countP (fun s => is_negative s)

/-- `negative_percentage = negative_count / total_comments` (line 157). -/
def negative_percentage (model : List Char → Scores) (comments : List Comment) : ℚ :=
  (negative_count model comments : ℚ) / (comments.length : ℚ)

/-- `sum(positive_scores) / total_comments`. -/
def mean_positive (model : List Char → Scores) (comments : List Comment) : ℚ :=
  ((comment_sentiments model comments).map Scores.positive).sum / (comments.length : ℚ)

/-- `sum(negative_scores) / total_comments`. -/
def mean_negative (model : List Char → Scores) (comments : List Comment) : ℚ :=
  ((comment_sentiments model comments).map Scores.negative).sum / (comments.length : ℚ)

/-- `sum(neutral_scores) / total_comments`. -/
def mean_neutral (model : List Char → Scores) (comments : List Comment) : ℚ :=
  ((comment_sentiments model comments).map Scores.neutral).sum / (comments.length : ℚ)

/-- `SentimentAnalyzer.determine_post_sentiment_from_comments`
(lines 120-190).  `threshold` is `Config.NEGATIVE_COMMENT_THRESHOLD`.
No comments: fixed neutral result.  Otherwise, if the ratio of negative
comments reaches the threshold (`>=`), blend the mean scores with the
ratio, normalize when the blended sum is positive, and force the verdict
negative; below the threshold, return the plain means with argmax dominant
and the strict negativity check. -/
def determine_post_sentiment_from_comments (model : List Char → Scores)
    (threshold : ℚ) (comments : List Comment) : Scores × String × Bool :=
  if comments.isEmpty then ({ positive := 0, negative := 0, neutral := 1 }, "neutral", false)
  else
    let ratio := negative_percentage model comments
    if threshold ≤ ratio then
      let raw : Scores :=
        { positive := mean_positive model comments * (1 - ratio)
          negative := mean_negative model comments + ratio * (1/2)
          neutral := mean_neutral model comments * (1 - ratio * (1/2)) }
      let total_score := raw.positive + raw.negative + raw.neutral
      let post :=
        if 0 < total_score then
          { positive := raw.positive / total_score
            negative := raw.negative / total_score
            neutral := raw.neutral / total_score : Scores }
        else raw
      (post, "negative", true)
    else
      let post : Scores :=
        { positive := mean_positive model comments
          negative := mean_negative model comments
          neutral := mean_neutral model comments }
      (post, get_dominant_sentiment post, is_negative post)

/-- `Config.NEGATIVE_COMMENT_THRESHOLD` (src/config.py line 43):
`float(os.getenv('NEGATIVE_COMMENT_THRESHOLD', 0.3))` — the environment
value is used as parsed; no range validation is performed anywhere in the
source (neither in config.py nor in `SentimentAnalyzer.__init__`). -/
def NEGATIVE_COMMENT_THRESHOLD (env : Option ℚ) : ℚ :=
  env.getD (3/10)

/-- A comment after annotation (lines 204-209): the original comment plus
the `sentiment`, `dominant_sentiment` and `is_negative` keys added by the
dict spread. -/
structure AnalyzedComment where
  comment : Comment
  sentiment : Scores
  dominant_sentiment : String
  is_negative : Bool
deriving DecidableEq, Repr

/-- A message after annotation (lines 217-225): the original message plus
the verdict fields; the `comments` key is overwritten with the annotated
comments. -/
structure AnalyzedMessage where
  message : Message
  sentiment : Scores
  dominant_sentiment : String
  is_negative : Bool
  comments : List AnalyzedComment
  sentiment_source : String
deriving DecidableEq, Repr

/-- The per-comment annotation step of `analyze_messages_sentiment`
(lines 202-210). -/
def analyze_comment (model : List Char → Scores) (c : Comment) : AnalyzedComment :=
  let s := analyze_sentiment model c.text
  ⟨c, s, get_dominant_sentiment s, is_negative s⟩

/-- The per-message body of the loop of `analyze_messages_sentiment`
(lines 199-227). -/
def analyze_message (model : List Char → Scores) (threshold : ℚ)
    (m : Message) : AnalyzedMessage :=
  let analyzed_comments := m.comments.map (analyze_comment model)
  let r := determine_post_sentiment_from_comments model threshold m.comments
  { message := m
    sentiment := r.1
    dominant_sentiment := r.2.1
    is_negative := r.2.2
    comments := analyzed_comments
    sentiment_source := if analyzed_comments.isEmpty then "neutral_default" else "comments" }

/-- `SentimentAnalyzer.analyze_messages_sentiment` (lines 192-234): the
loop appends one annotated message per input message, in order. -/
def analyze_messages_sentiment (model : List Char → Scores) (threshold : ℚ)
    (messages : List Message) : List AnalyzedMessage :=
  messages.map (analyze_message model threshold)

/-! ### Whitespace-shape predicates for the cleaner -/

/-- The head, if any, is not whitespace. -/
def HeadOK : List Char → Prop
  | [] => True
  | c :: _ => isPySpace c = false

/-- The last element, if any, is not whitespace. -/
def LastOK : List Char → Prop
  | [] => True
  | [c] => isPySpace c = false
  | _ :: c :: cs => LastOK (c :: cs)

/-- No two adjacent whitespace characters. -/
def NoDoubleWS : List Char → Prop
  | c :: d :: cs => ¬(isPySpace c = true ∧ isPySpace d = true) ∧ NoDoubleWS (d :: cs)
  | _ => True

/-- Every whitespace character is a plain space. -/
def OnlyPlainWS (l : List Char) : Prop :=
  ∀ c ∈ l, isPySpace c = true → c = ' '

lemma noDoubleWS_tail {c : Char} {cs : List Char} (h : NoDoubleWS (c :: cs)) :
    NoDoubleWS cs := by
  cases cs with
  | nil => trivial
  | cons d ds => exact h.2

lemma noDoubleWS_cons_of_not_space {c : Char} {cs : List Char}
    (hc : isPySpace c = false) (hcs : NoDoubleWS cs) : NoDoubleWS (c :: cs) := by
  cases cs with
  | nil => trivial
  | cons d ds => exact ⟨fun hp => by simp [hc] at hp, hcs⟩

lemma noDoubleWS_cons_of_headOK {c : Char} {cs : List Char}
    (hh : HeadOK cs) (hcs : NoDoubleWS cs) : NoDoubleWS (c :: cs) := by
  cases cs with
  | nil => trivial
  | cons d ds => exact ⟨fun hp => by simp [HeadOK] at hh; simp [hh] at hp, hcs⟩

lemma onlyPlainWS_tail {c : Char} {cs : List Char} (h : OnlyPlainWS (c :: cs)) :
    OnlyPlainWS cs :=
  fun x hx => h x (List.mem_cons_of_mem c hx)

/-! ### Collapse lemmas -/

lemma collapseAux_true_headOK : ∀ l : List Char, HeadOK (collapseAux true l) := by
  intro l
  induction l with
  | nil => trivial
  | cons c cs ih =>
    cases hc : isPySpace c with
    | true => simpa [collapseAux, hc] using ih
    | false =>
      simp only [collapseAux, hc, Bool.false_eq_true, if_false]
      exact hc

lemma collapseAux_onlyPlainWS : ∀ (l : List Char) (b : Bool), OnlyPlainWS (collapseAux b l) := by
  intro l
  induction l with
  | nil => intro b x hx; simp [collapseAux] at hx
  | cons c cs ih =>
    intro b
    cases hc : isPySpace c with
    | true =>
      cases b with
      | true => simpa [collapseAux, hc] using ih true
      | false =>
        simp only [collapseAux, hc, if_pos, Bool.false_eq_true, if_false]
        intro x hx hws
        rcases List.mem_cons.mp hx with h | h
        · exact h
        · exact ih true x h hws
    | false =>
      simp only [collapseAux, hc, Bool.false_eq_true, if_false]
      intro x hx hws
      rcases List.mem_cons.mp hx with h | h
      · subst h; rw [hws] at hc; cases hc
      · exact ih false x h hws

lemma collapseAux_noDoubleWS : ∀ (l : List Char) (b : Bool), NoDoubleWS (collapseAux b l) := by
  intro l
  induction l with
  | nil => intro b; trivial
  | cons c cs ih =>
    intro b
    cases hc : isPySpace c with
    | true =>
      cases b with
      | true => simpa [collapseAux, hc] using ih true
      | false =>
        simp only [collapseAux, hc, if_pos, Bool.false_eq_true, if_false]
        exact noDoubleWS_cons_of_headOK (collapseAux_true_headOK cs) (ih true)
    | false =>
      simp only [collapseAux, hc, Bool.false_eq_true, if_false]
      exact noDoubleWS_cons_of_not_space hc (ih false)

lemma collapseAux_id : ∀ l : List Char, OnlyPlainWS l → NoDoubleWS l →
    collapseAux false l = l ∧ (HeadOK l → collapseAux true l = l) := by
  intro l
  induction l with
  | nil => exact fun _ _ => ⟨rfl, fun _ => rfl⟩
  | cons c cs ih =>
    intro hp hnd
    have ihcs := ih (onlyPlainWS_tail hp) (noDoubleWS_tail hnd)
    cases hc : isPySpace c with
    | true =>
      have hc' : c = ' ' := hp c (List.mem_cons_self c cs) hc
      have hhead : HeadOK cs := by
        cases cs with
        | nil => trivial
        | cons d ds =>
          cases hd : isPySpace d with
          | true => exact absurd ⟨hc, hd⟩ hnd.1
          | false => exact hd
      constructor
      · simp only [collapseAux, hc, if_pos, Bool.false_eq_true, if_false, ihcs.2 hhead, hc']
        rw [if_pos (by decide : isPySpace ' ' = true)]
      · intro hh
        rw [show HeadOK (c :: cs) = (isPySpace c = false) from rfl] at hh
        rw [hh] at hc; cases hc
    | false =>
      constructor
      · simp only [collapseAux, hc, Bool.false_eq_true, if_false, ihcs.1]
      · intro _
        simp only [collapseAux, hc, Bool.false_eq_true, if_false, ihcs.1]

/-! ### dropWhile / dropTrailing lemmas -/

lemma headOK_dropWhile : ∀ l : List Char, HeadOK (l.dropWhile isPySpace) := by
  intro l
  induction l with
  | nil => trivial
  | cons c cs ih =>
    cases hc : isPySpace c with
    | true => simpa [List.dropWhile, hc] using ih
    | false =>
      simp only [List.dropWhile, hc]
      exact hc

lemma onlyPlainWS_dropWhile {l : List Char} (h : OnlyPlainWS l) :
    OnlyPlainWS (l.dropWhile isPySpace) := by
  induction l with
  | nil => exact h
  | cons c cs ih =>
    cases hc : isPySpace c with
    | true => simpa [List.dropWhile, hc] using ih (onlyPlainWS_tail h)
    | false => simpa [List.dropWhile, hc] using h

lemma noDoubleWS_dropWhile {l : List Char} (h : NoDoubleWS l) :
    NoDoubleWS (l.dropWhile isPySpace) := by
  induction l with
  | nil => exact h
  | cons c cs ih =>
    cases hc : isPySpace c with
    | true => simpa [List.dropWhile, hc] using ih (noDoubleWS_tail h)
    | false => simpa [List.dropWhile, hc] using h

lemma dropWhile_id_of_headOK {l : List Char} (h : HeadOK l) :
    l.dropWhile isPySpace = l := by
  cases l with
  | nil => rfl
  | cons c cs =>
    have hc : isPySpace c = false := h
    simp [List.dropWhile, hc]

lemma dropTrailing_cons_shape (c : Char) (cs : List Char) :
    dropTrailing (c :: cs) = [] ∨ dropTrailing (c :: cs) = c :: dropTrailing cs := by
  by_cases h : ((dropTrailing cs).isEmpty && isPySpace c) = true
  · left; simp [dropTrailing, h]
  · right; simp [dropTrailing, h]

lemma dropTrailing_head_eq {cs : List Char} {d : Char} {r : List Char}
    (h : dropTrailing cs = d :: r) : ∃ cs', cs = d :: cs' := by
  cases cs with
  | nil => simp [dropTrailing] at h
  | cons e es =>
    rcases dropTrailing_cons_shape e es with h' | h'
    · rw [h'] at h; exact absurd h (by simp)
    · rw [h'] at h
      injection h with h1 h2
      exact ⟨es, by rw [h1]⟩

lemma headOK_dropTrailing {l : List Char} (h : HeadOK l) : HeadOK (dropTrailing l) := by
  cases l with
  | nil => trivial
  | cons c cs =>
    rcases dropTrailing_cons_shape c cs with h' | h'
    · rw [h']; trivial
    · rw [h']; exact h

lemma onlyPlainWS_dropTrailing {l : List Char} (h : OnlyPlainWS l) :
    OnlyPlainWS (dropTrailing l) := by
  induction l with
  | nil => exact h
  | cons c cs ih =>
    rcases dropTrailing_cons_shape c cs with h' | h'
    · rw [h']; intro x hx; simp at hx
    · rw [h']
      intro x hx hws
      rcases List.mem_cons.mp hx with hxc | hxr
      · exact h x (by rw [hxc]; exact List.mem_cons_self c cs) hws
      · exact ih (onlyPlainWS_tail h) x hxr hws

lemma noDoubleWS_dropTrailing {l : List Char} (h : NoDoubleWS l) :
    NoDoubleWS (dropTrailing l) := by
  induction l with
  | nil => exact h
  | cons c cs ih =>
    rcases dropTrailing_cons_shape c cs with h' | h'
    · rw [h']; trivial
    · rw [h']
      have htail := ih (noDoubleWS_tail h)
      cases hr : dropTrailing cs with
      | nil => trivial
      | cons d r =>
        rw [hr] at htail
        obtain ⟨cs', hcs⟩ := dropTrailing_head_eq hr
        refine ⟨?_, htail⟩
        rw [hcs] at h
        exact h.1

lemma lastOK_dropTrailing : ∀ l : List Char, LastOK (dropTrailing l) := by
  intro l
  induction l with
  | nil => trivial
  | cons c cs ih =>
    cases hr : dropTrailing cs with
    | nil =>
      cases hc : isPySpace c with
      | true => simp only [dropTrailing, hr, hc, List.isEmpty_nil, Bool.and_self, if_pos]; trivial
      | false =>
        simp only [dropTrailing, hr, hc, List.isEmpty_nil, Bool.and_false, Bool.false_eq_true,
          if_false]
        exact hc
    | cons d r =>
      rw [hr] at ih
      simp only [dropTrailing, hr, List.isEmpty_cons, Bool.false_and, Bool.false_eq_true, if_false]
      exact ih

lemma dropTrailing_id_of_lastOK : ∀ l : List Char, LastOK l → dropTrailing l = l := by
  intro l
  induction l with
  | nil => exact fun _ => rfl
  | cons c cs ih =>
    intro h
    cases cs with
    | nil =>
      have hc : isPySpace c = false := h
      simp [dropTrailing, hc]
    | cons d ds =>
      have hcs : dropTrailing (d :: ds) = d :: ds := ih h
      rw [show dropTrailing (c :: d :: ds) =
        (if (dropTrailing (d :: ds)).isEmpty && isPySpace c then []
         else c :: dropTrailing (d :: ds)) from rfl, hcs]
      simp

lemma stripWS_id {l : List Char} (h1 : HeadOK l) (h2 : LastOK l) : stripWS l = l := by
  rw [stripWS, dropWhile_id_of_headOK h1, dropTrailing_id_of_lastOK l h2]

/-- The output of `clean_text` is whitespace-normal: every whitespace
character is a single plain space, not doubled, and not at either end. -/
lemma clean_text_shape (text : List Char) :
    OnlyPlainWS (clean_text text) ∧ NoDoubleWS (clean_text text) ∧
      HeadOK (clean_text text) ∧ LastOK (clean_text text) := by
  unfold clean_text
  by_cases h : text.isEmpty
  · simp only [h, if_pos]
    exact ⟨fun x hx => by simp at hx, trivial, trivial, trivial⟩
  · simp only [h, Bool.false_eq_true, if_false]
    rw [stripWS, collapseWS]
    set z := subHash (subMention (subUrl text))
    refine ⟨?_, ?_, ?_, ?_⟩
    · exact onlyPlainWS_dropTrailing (onlyPlainWS_dropWhile (collapseAux_onlyPlainWS z false))
    · exact noDoubleWS_dropTrailing (noDoubleWS_dropWhile (collapseAux_noDoubleWS z false))
    · exact headOK_dropTrailing (headOK_dropWhile _)
    · exact lastOK_dropTrailing _

/-- If the pattern matches nowhere, the substitution scan is the identity. -/
lemma subPatternAux_id (pat : List Char → Option (List Char)) :
    ∀ (fuel : Nat) (l : List Char), hasPat pat l = false → subPatternAux pat fuel l = l := by
  intro fuel
  induction fuel with
  | zero => intro l _; rfl
  | succ n ih =>
    intro l h
    cases l with
    | nil => rfl
    | cons c cs =>
      have h' := h
      simp only [hasPat, Bool.or_eq_false_iff] at h'
      cases hp : pat (c :: cs) with
      | some rest => rw [hp] at h'; simp at h'
      | none => simp only [subPatternAux, hp, ih cs h'.2]

/-! ### Sentiment helper lemmas -/

lemma is_negative_iff (s : Scores) :
    is_negative s = true ↔ s.positive < s.negative ∧ s.neutral < s.negative := by
  simp [is_negative, max_lt_iff]

/-- Characterization of the Python `max(items, key=...)[0]` fold: the first
category, in the fixed iteration order positive, negative, neutral, whose
score is greater than or equal to all three. -/
lemma get_dominant_eq (s : Scores) :
    get_dominant_sentiment s =
      (if s.negative ≤ s.positive ∧ s.neutral ≤ s.positive then "positive"
       else if s.neutral ≤ s.negative then "negative"
       else "neutral") := by
  unfold get_dominant_sentiment
  dsimp only
  rcases lt_or_le s.positive s.negative with h1 | h1
  · rcases lt_or_le s.negative s.neutral with h2 | h2
    · rw [if_pos h1]
      simp only
      rw [if_pos h2, if_neg (by rintro ⟨ha, _⟩; exact absurd h1 (not_lt.mpr ha)),
        if_neg (not_le.mpr h2)]
    · rw [if_pos h1]
      simp only
      rw [if_neg (not_lt.mpr h2), if_neg (by rintro ⟨ha, _⟩; exact absurd h1 (not_lt.mpr ha)),
        if_pos h2]
  · rcases lt_or_le s.positive s.neutral with h2 | h2
    · rw [if_neg (not_lt.mpr h1)]
      simp only
      rw [if_pos h2, if_neg (by rintro ⟨_, hb⟩; exact absurd h2 (not_lt.mpr hb)),
        if_neg (not_le.mpr (lt_of_le_of_lt h1 h2))]
    · rw [if_neg (not_lt.mpr h1)]
      simp only
      rw [if_neg (not_lt.mpr h2), if_pos ⟨h1, h2⟩]

lemma dominant_of_is_negative {s : Scores} (h : is_negative s = true) :
    get_dominant_sentiment s = "negative" := by
  obtain ⟨h1, h2⟩ := (is_negative_iff s).mp h
  rw [get_dominant_eq,
    if_neg (by rintro ⟨ha, _⟩; exact absurd h1 (not_lt.mpr ha)),
    if_pos h2.le]

lemma isEmpty_false_of_ne_nil {α : Type} {l : List α} (h : l ≠ []) :
    l.isEmpty = false := by
  cases l with
  | nil => exact absurd rfl h
  | cons a as => rfl

/-- The raw blended scores of the escalation branch (lines 163-167). -/
def raw_blended (model : List Char → Scores) (comments : List Comment) : Scores :=
  { positive := mean_positive model comments * (1 - negative_percentage model comments)
    negative := mean_negative model comments + negative_percentage model comments * (1/2)
    neutral := mean_neutral model comments * (1 - negative_percentage model comments * (1/2)) }

/-- The plain mean scores of the non-escalation branch (lines 178-182). -/
def mean_scores (model : List Char → Scores) (comments : List Comment) : Scores :=
  { positive := mean_positive model comments
    negative := mean_negative model comments
    neutral := mean_neutral model comments }

lemma determine_eq_escalation (model : List Char → Scores) (t : ℚ)
    (comments : List Comment) (hne : comments ≠ [])
    (h : t ≤ negative_percentage model comments) :
    determine_post_sentiment_from_comments model t comments =
      ((if 0 < (raw_blended model comments).positive + (raw_blended model comments).negative +
            (raw_blended model comments).neutral then
          { positive := (raw_blended model comments).positive /
              ((raw_blended model comments).positive + (raw_blended model comments).negative +
                (raw_blended model comments).neutral)
            negative := (raw_blended model comments).negative /
              ((raw_blended model comments).positive + (raw_blended model comments).negative +
                (raw_blended model comments).neutral)
            neutral := (raw_blended model comments).neutral /
              ((raw_blended model comments).positive + (raw_blended model comments).negative +
                (raw_blended model comments).neutral) }
        else raw_blended model comments),
       "negative", true) := by
  unfold determine_post_sentiment_from_comments
  rw [isEmpty_false_of_ne_nil hne]
  simp only [Bool.false_eq_true, if_false]
  rw [if_pos h]
  rfl

lemma determine_eq_means (model : List Char → Scores) (t : ℚ)
    (comments : List Comment) (hne : comments ≠ [])
    (h : negative_percentage model comments < t) :
    determine_post_sentiment_from_comments model t comments =
      (mean_scores model comments, get_dominant_sentiment (mean_scores model comments),
       is_negative (mean_scores model comments)) := by
  unfold determine_post_sentiment_from_comments
  rw [isEmpty_false_of_ne_nil hne]
  simp only [Bool.false_eq_true, if_false]
  rw [if_neg (not_le.mpr h)]
  rfl

lemma negative_percentage_le_one (model : List Char → Scores) (comments : List Comment) :
    negative_percentage model comments ≤ 1 := by
  unfold negative_percentage
  cases comments with
  | nil => simp
  | cons c cs =>
    have hlen : (0 : ℚ) < ((c :: cs).length : ℚ) := by
      exact_mod_cast Nat.pos_of_ne_zero (by simp)
    rw [div_le_one hlen]
    have hcount : negative_count model (c :: cs) ≤ (c :: cs).length := by
      unfold negative_count comment_sentiments
      calc (((c :: cs).map fun x => analyze_sentiment model x.text).countP fun s => is_negative s)
          ≤ ((c :: cs).map fun x => analyze_sentiment model x.text).length :=
            List.countP_le_length _
        _ = (c :: cs).length := List.length_map _ _
    exact_mod_cast hcount

/-- If the verdict component of the resolver is `true`, the dominant
component is `"negative"`, whichever branch produced them. -/
lemma determine_negative_dominant (model : List Char → Scores) (t : ℚ)
    (comments : List Comment)
    (h : (determine_post_sentiment_from_comments model t comments).2.2 = true) :
    (determine_post_sentiment_from_comments model t comments).2.1 = "negative" := by
  by_cases hne : comments = []
  · subst hne
    simp [determine_post_sentiment_from_comments] at h
  · by_cases ht : t ≤ negative_percentage model comments
    · rw [determine_eq_escalation model t comments hne ht]
    · rw [determine_eq_means model t comments hne (not_le.mp ht)] at h ⊢
      exact dominant_of_is_negative h

/-! ### Concrete sample inputs used by witnesses -/

/-- A classifier used by witnesses: one positive text, everything else
mildly negative. -/
def mixedModel : List Char → Scores := fun txt =>
  if txt = "good".toList then { positive := 9/10, negative := 0, neutral := 1/10 }
  else { positive := 3/10, negative := 4/10, neutral := 3/10 }

/-- Two comments, one individually negative under `mixedModel`
(negative-comment ratio 1/2), with mean negative 1/5 below mean
positive 3/5. -/
def mixedComments : List Comment := [{ text := "good".toList }, { text := "bad".toList }]

/-! ### Claims -/

/-- C1: for every non-empty comment list and threshold `t`, if the
negative-comment ratio is `≥ t` (equality included), the resolver returns
dominant `"negative"` and `isNegative = true`, unconditionally in the
mean scores — the dominant is not recomputed by argmax in this branch. -/
theorem escalation_forces_negative_verdict (model : List Char → Scores) (t : ℚ)
    (comments : List Comment) (hne : comments ≠ [])
    (h : t ≤ negative_percentage model comments) :
    (determine_post_sentiment_from_comments model t comments).2.1 = "negative" ∧
    (determine_post_sentiment_from_comments model t comments).2.2 = true := by
  rw [determine_eq_escalation model t comments hne h]
  exact ⟨rfl, rfl⟩

theorem escalation_forces_negative_verdict_witness :
    (mixedComments ≠ [] ∧ (3/10 : ℚ) ≤ negative_percentage mixedModel mixedComments ∧
      mean_negative mixedModel mixedComments < mean_positive mixedModel mixedComments) ∧
    ((determine_post_sentiment_from_comments mixedModel (3/10) mixedComments).2.1 = "negative" ∧
     (determine_post_sentiment_from_comments mixedModel (3/10) mixedComments).2.2 = true) :=
  ⟨⟨by decide, by decide, by decide⟩,
   escalation_forces_negative_verdict mixedModel (3/10) mixedComments (by decide) (by decide)⟩

/-- C2: in the escalation branch the returned scores come from the raw
blend `rawPositive = meanPositive * (1 - ratio)`,
`rawNegative = meanNegative + ratio * 0.5`,
`rawNeutral = meanNeutral * (1 - ratio * 0.5)`: if the raw sum is strictly
positive each component is divided by it, and if the raw sum is exactly
zero the raw triple is returned unchanged (not replaced by neutral). -/
theorem escalation_scores_blend_and_normalize (model : List Char → Scores) (t : ℚ)
    (comments : List Comment) (hne : comments ≠ [])
    (h : t ≤ negative_percentage model comments) :
    (0 < (raw_blended model comments).positive + (raw_blended model comments).negative +
        (raw_blended model comments).neutral →
      (determine_post_sentiment_from_comments model t comments).1 =
        { positive := (raw_blended model comments).positive /
            ((raw_blended model comments).positive + (raw_blended model comments).negative +
              (raw_blended model comments).neutral)
          negative := (raw_blended model comments).negative /
            ((raw_blended model comments).positive + (raw_blended model comments).negative +
              (raw_blended model comments).neutral)
          neutral := (raw_blended model comments).neutral /
            ((raw_blended model comments).positive + (raw_blended model comments).negative +
              (raw_blended model comments).neutral) }) ∧
    ((raw_blended model comments).positive + (raw_blended model comments).negative +
        (raw_blended model comments).neutral = 0 →
      (determine_post_sentiment_from_comments model t comments).1 =
        raw_blended model comments) := by
  rw [determine_eq_escalation model t comments hne h]
  constructor
  · intro hpos
    simp only [if_pos hpos]
  · intro hzero
    rw [if_neg (by rw [hzero]; exact lt_irrefl 0)]

theorem escalation_scores_blend_and_normalize_witness :
    (mixedComments ≠ [] ∧ (3/10 : ℚ) ≤ negative_percentage mixedModel mixedComments ∧
      0 < (raw_blended mixedModel mixedComments).positive +
          (raw_blended mixedModel mixedComments).negative +
          (raw_blended mixedModel mixedComments).neutral) ∧
    ((0 < (raw_blended mixedModel mixedComments).positive +
        (raw_blended mixedModel mixedComments).negative +
        (raw_blended mixedModel mixedComments).neutral →
      (determine_post_sentiment_from_comments mixedModel (3/10) mixedComments).1 =
        { positive := (raw_blended mixedModel mixedComments).positive /
            ((raw_blended mixedModel mixedComments).positive +
              (raw_blended mixedModel mixedComments).negative +
              (raw_blended mixedModel mixedComments).neutral)
          negative := (raw_blended mixedModel mixedComments).negative /
            ((raw_blended mixedModel mixedComments).positive +
              (raw_blended mixedModel mixedComments).negative +
              (raw_blended mixedModel mixedComments).neutral)
          neutral := (raw_blended mixedModel mixedComments).neutral /
            ((raw_blended mixedModel mixedComments).positive +
              (raw_blended mixedModel mixedComments).negative +
              (raw_blended mixedModel mixedComments).neutral) }) ∧
     ((raw_blended mixedModel mixedComments).positive +
        (raw_blended mixedModel mixedComments).negative +
        (raw_blended mixedModel mixedComments).neutral = 0 →
      (determine_post_sentiment_from_comments mixedModel (3/10) mixedComments).1 =
        raw_blended mixedModel mixedComments)) :=
  ⟨⟨by decide, by decide, by decide⟩,
   escalation_scores_blend_and_normalize mixedModel (3/10) mixedComments (by decide) (by decide)⟩

/-- C3: below the threshold, the resolver returns exactly the per-category
arithmetic means of the comments' scores, with the dominant computed by
argmax (first of positive, negative, neutral on ties) and the verdict by
the strict rule (negative strictly above both others). -/
theorem non_escalation_returns_plain_means (model : List Char → Scores) (t : ℚ)
    (comments : List Comment) (hne : comments ≠ [])
    (h : negative_percentage model comments < t) :
    determine_post_sentiment_from_comments model t comments =
      (mean_scores model comments, get_dominant_sentiment (mean_scores model comments),
       is_negative (mean_scores model comments)) ∧
    (is_negative (mean_scores model comments) = true ↔
      (mean_scores model comments).positive < (mean_scores model comments).negative ∧
      (mean_scores model comments).neutral < (mean_scores model comments).negative) ∧
    get_dominant_sentiment (mean_scores model comments) =
      (if (mean_scores model comments).negative ≤ (mean_scores model comments).positive ∧
          (mean_scores model comments).neutral ≤ (mean_scores model comments).positive
       then "positive"
       else if (mean_scores model comments).neutral ≤ (mean_scores model comments).negative
       then "negative" else "neutral") :=
  ⟨determine_eq_means model t comments hne h, is_negative_iff _, get_dominant_eq _⟩

theorem non_escalation_returns_plain_means_witness :
    (mixedComments ≠ [] ∧ negative_percentage mixedModel mixedComments < (7/10 : ℚ)) ∧
    (determine_post_sentiment_from_comments mixedModel (7/10) mixedComments =
      (mean_scores mixedModel mixedComments,
       get_dominant_sentiment (mean_scores mixedModel mixedComments),
       is_negative (mean_scores mixedModel mixedComments)) ∧
     (is_negative (mean_scores mixedModel mixedComments) = true ↔
       (mean_scores mixedModel mixedComments).positive <
           (mean_scores mixedModel mixedComments).negative ∧
       (mean_scores mixedModel mixedComments).neutral <
           (mean_scores mixedModel mixedComments).negative) ∧
     get_dominant_sentiment (mean_scores mixedModel mixedComments) =
       (if (mean_scores mixedModel mixedComments).negative ≤
             (mean_scores mixedModel mixedComments).positive ∧
           (mean_scores mixedModel mixedComments).neutral ≤
             (mean_scores mixedModel mixedComments).positive
        then "positive"
        else if (mean_scores mixedModel mixedComments).neutral ≤
            (mean_scores mixedModel mixedComments).negative
        then "negative" else "neutral")) :=
  ⟨⟨by decide, by decide⟩,
   non_escalation_returns_plain_means mixedModel (7/10) mixedComments (by decide) (by decide)⟩

/-- C4: the empty comment list yields exactly
`({positive: 0, negative: 0, neutral: 1}, "neutral", false)`, and a
zero-comment post is annotated with `sentiment_source = "neutral_default"`. -/
theorem empty_comments_neutral_default (model : List Char → Scores) (t : ℚ) :
    determine_post_sentiment_from_comments model t [] =
      ({ positive := 0, negative := 0, neutral := 1 }, "neutral", false) ∧
    ∀ m : Message, m.comments = [] →
      analyze_message model t m =
        { message := m
          sentiment := { positive := 0, negative := 0, neutral := 1 }
          dominant_sentiment := "neutral"
          is_negative := false
          comments := []
          sentiment_source := "neutral_default" } := by
  refine ⟨rfl, ?_⟩
  intro m hm
  unfold analyze_message
  rw [hm]
  rfl

theorem empty_comments_neutral_default_witness :
    (Message.mk "p".toList []).comments = [] ∧
    analyze_message (fun _ => { positive := 0, negative := 0, neutral := 1 }) (3/10)
        (Message.mk "p".toList []) =
      { message := Message.mk "p".toList []
        sentiment := { positive := 0, negative := 0, neutral := 1 }
        dominant_sentiment := "neutral"
        is_negative := false
        comments := []
        sentiment_source := "neutral_default" } :=
  ⟨rfl, (empty_comments_neutral_default (fun _ => ⟨0, 0, 1⟩) (3/10)).2 _ rfl⟩

/-- C7: `is_negative` holds exactly when the negative score is strictly
greater than both the positive and the neutral score; an exact tie (such as
`{positive: 0.4, negative: 0.4, neutral: 0.2}`) is not negative. -/
theorem is_negative_strict_majority_rule :
    (∀ s : Scores, is_negative s = true ↔
      s.positive < s.negative ∧ s.neutral < s.negative) ∧
    is_negative { positive := 2/5, negative := 2/5, neutral := 1/5 } = false :=
  ⟨is_negative_iff, by decide⟩

/-- C8: `get_dominant_sentiment` returns the category with the strictly
highest score, and on exact ties the first category in the fixed order
positive, negative, neutral; `{0.33, 0.33, 0.34}` yields `"neutral"` and
`{0.5, 0.5, 0}` yields `"positive"`. -/
theorem dominant_argmax_first_tie_order :
    (∀ s : Scores, get_dominant_sentiment s =
      (if s.negative ≤ s.positive ∧ s.neutral ≤ s.positive then "positive"
       else if s.neutral ≤ s.negative then "negative"
       else "neutral")) ∧
    get_dominant_sentiment { positive := 33/100, negative := 33/100, neutral := 34/100 } =
      "neutral" ∧
    get_dominant_sentiment { positive := 1/2, negative := 1/2, neutral := 0 } = "positive" :=
  ⟨get_dominant_eq, by decide, by decide⟩

/-- C5 counterexample: an out-of-range threshold is not rejected at
construction and not clamped: `float('1.5')`-style values pass straight
through `Config.NEGATIVE_COMMENT_THRESHOLD` and into the comparison, where
a one-comment, all-negative post (ratio 1) then takes the non-escalation
branch — whereas any clamped value in `[0, 1]` would have escalated (the
escalated result at threshold 1 is shown to differ). -/
theorem threshold_out_of_range_accepted :
    NEGATIVE_COMMENT_THRESHOLD (some (3/2)) = 3/2 ∧
    determine_post_sentiment_from_comments
        (fun _ => { positive := 1/10, negative := 6/10, neutral := 3/10 })
        (NEGATIVE_COMMENT_THRESHOLD (some (3/2))) [{ text := "a".toList }] =
      ({ positive := 1/10, negative := 6/10, neutral := 3/10 }, "negative", true) ∧
    determine_post_sentiment_from_comments
        (fun _ => { positive := 1/10, negative := 6/10, neutral := 3/10 })
        1 [{ text := "a".toList }] =
      ({ positive := 0, negative := 22/25, neutral := 3/25 }, "negative", true) := by
  refine ⟨rfl, by decide, by decide⟩

/-- C5 (amended): the source performs no validation of the negative-comment
threshold: a value outside `[0, 1]` is accepted and used directly in the
ratio comparison, neither rejected nor clamped.  In particular, since the
negative-comment ratio never exceeds 1, any threshold strictly above 1
silently disables the escalation branch for every non-empty post. -/
theorem threshold_above_one_disables_escalation (model : List Char → Scores) (t : ℚ)
    (comments : List Comment) (hne : comments ≠ []) (ht : 1 < t) :
    determine_post_sentiment_from_comments model t comments =
      (mean_scores model comments, get_dominant_sentiment (mean_scores model comments),
       is_negative (mean_scores model comments)) :=
  determine_eq_means model t comments hne
    (lt_of_le_of_lt (negative_percentage_le_one model comments) ht)

theorem threshold_above_one_disables_escalation_witness :
    (([{ text := "a".toList }] : List Comment) ≠ [] ∧ (1 : ℚ) < 3/2 ∧
      negative_percentage (fun _ => { positive := 1/10, negative := 6/10, neutral := 3/10 })
        [{ text := "a".toList }] = 1) ∧
    determine_post_sentiment_from_comments
        (fun _ => { positive := 1/10, negative := 6/10, neutral := 3/10 })
        (3/2) [{ text := "a".toList }] =
      (mean_scores (fun _ => { positive := 1/10, negative := 6/10, neutral := 3/10 })
         [{ text := "a".toList }],
       get_dominant_sentiment
         (mean_scores (fun _ => { positive := 1/10, negative := 6/10, neutral := 3/10 })
            [{ text := "a".toList }]),
       is_negative
         (mean_scores (fun _ => { positive := 1/10, negative := 6/10, neutral := 3/10 })
            [{ text := "a".toList }])) :=
  ⟨⟨by decide, by decide, by decide⟩,
   threshold_above_one_disables_escalation
     (fun _ => { positive := 1/10, negative := 6/10, neutral := 3/10 }) (3/2)
     [{ text := "a".toList }] (by decide) (by decide)⟩

/-- C6 counterexample: `clean_text` is not idempotent.  In
`"http@xs://example"` the URL pattern does not match (the `@` interrupts
`http://`), but removing the mention `@xs` splices the remainder into
`"http://example"`, which a second pass removes entirely. -/
theorem clean_text_not_idempotent :
    clean_text (clean_text "http@xs://example".toList) ≠
      clean_text "http@xs://example".toList := by
  decide

/-- C6 (amended): one cleaning pass is stable except that removing a
URL/mention/hashtag can splice surrounding characters into a new match.
Whenever the cleaned text contains no further match of the URL, mention,
or hashtag patterns, a second pass is the identity: the whitespace stage
is always idempotent, so only pattern residue can change a second pass. -/
theorem clean_text_idempotent_without_residue (text : List Char)
    (hu : hasUrl (clean_text text) = false)
    (hm : hasMention (clean_text text) = false)
    (hh : hasHash (clean_text text) = false) :
    clean_text (clean_text text) = clean_text text := by
  obtain ⟨hplain, hnd, hhead, hlast⟩ := clean_text_shape text
  by_cases hy : (clean_text text).isEmpty
  · have h0 : clean_text text = [] := by
      cases he : clean_text text with
      | nil => rfl
      | cons a as => rw [he] at hy; cases hy
    rw [h0]
    rfl
  · rw [show clean_text (clean_text text) =
        (if (clean_text text).isEmpty then []
         else stripWS (collapseWS (subHash (subMention (subUrl (clean_text text))))))
      from rfl]
    rw [if_neg hy]
    rw [subUrl, subPatternAux_id matchUrl _ _ hu]
    rw [subMention, subPatternAux_id matchMention _ _ hm]
    rw [subHash, subPatternAux_id matchHash _ _ hh]
    rw [collapseWS, (collapseAux_id (clean_text text) hplain hnd).1]
    exact stripWS_id hhead hlast

theorem clean_text_idempotent_without_residue_witness :
    (hasUrl (clean_text "hi @bob #x http://a.b ok".toList) = false ∧
     hasMention (clean_text "hi @bob #x http://a.b ok".toList) = false ∧
     hasHash (clean_text "hi @bob #x http://a.b ok".toList) = false ∧
     clean_text "hi @bob #x http://a.b ok".toList = "hi ok".toList) ∧
    clean_text (clean_text "hi @bob #x http://a.b ok".toList) =
      clean_text "hi @bob #x http://a.b ok".toList :=
  ⟨⟨by decide, by decide, by decide, by decide⟩,
   clean_text_idempotent_without_residue "hi @bob #x http://a.b ok".toList
     (by decide) (by decide) (by decide)⟩

/-- C9: the batch pipeline returns one annotated message per input message
in the same order: output index `i` holds input message `i` (its original
fields, and its comments in their original order), `sentiment_source` is
`"comments"` exactly when the post has at least one comment and
`"neutral_default"` otherwise, and every annotated comment carries its own
sentiment scores, dominant sentiment and negativity verdict. -/
theorem analyze_messages_order_and_fields (model : List Char → Scores) (t : ℚ)
    (messages : List Message) :
    (analyze_messages_sentiment model t messages).length = messages.length ∧
    ∀ (i : Nat) (h1 : i < messages.length)
      (h2 : i < (analyze_messages_sentiment model t messages).length),
      ((analyze_messages_sentiment model t messages).get ⟨i, h2⟩).message =
          messages.get ⟨i, h1⟩ ∧
      ((analyze_messages_sentiment model t messages).get ⟨i, h2⟩).comments.map
          (fun ac => ac.comment) = (messages.get ⟨i, h1⟩).comments ∧
      ((analyze_messages_sentiment model t messages).get ⟨i, h2⟩).sentiment_source =
        (if (messages.get ⟨i, h1⟩).comments.isEmpty then "neutral_default"
         else "comments") ∧
      ∀ ac ∈ ((analyze_messages_sentiment model t messages).get ⟨i, h2⟩).comments,
        ac.sentiment = analyze_sentiment model ac.comment.text ∧
        ac.dominant_sentiment = get_dominant_sentiment (analyze_sentiment model ac.comment.text) ∧
        ac.is_negative = is_negative (analyze_sentiment model ac.comment.text) := by
  refine ⟨List.length_map _ _, ?_⟩
  intro i h1 h2
  have hget : (analyze_messages_sentiment model t messages).get ⟨i, h2⟩ =
      analyze_message model t (messages.get ⟨i, h1⟩) := by
    simp [analyze_messages_sentiment, List.getElem_map]
  rw [hget]
  refine ⟨rfl, ?_, ?_, ?_⟩
  · show ((messages.get ⟨i, h1⟩).comments.map (analyze_comment model)).map
        (fun ac => ac.comment) = (messages.get ⟨i, h1⟩).comments
    rw [List.map_map]
    exact List.map_id _
  · show (if ((messages.get ⟨i, h1⟩).comments.map (analyze_comment model)).isEmpty
        then "neutral_default" else "comments") = _
    cases hmc : (messages.get ⟨i, h1⟩).comments with
    | nil => rfl
    | cons c cs => rfl
  · intro ac hac
    have hac' : ac ∈ (messages.get ⟨i, h1⟩).comments.map (analyze_comment model) := hac
    obtain ⟨c, _, rfl⟩ := List.mem_map.mp hac'
    exact ⟨rfl, rfl, rfl⟩

/-- Two sample posts: one with the two mixed comments, one with none. -/
def sample_messages : List Message :=
  [{ text := "p".toList, comments := mixedComments },
   { text := "q".toList, comments := [] }]

theorem analyze_messages_order_and_fields_witness :
    ((0 : Nat) < sample_messages.length ∧
      (0 : Nat) < (analyze_messages_sentiment mixedModel (3/10) sample_messages).length) ∧
    ((analyze_messages_sentiment mixedModel (3/10) sample_messages).length =
        sample_messages.length ∧
     (((analyze_messages_sentiment mixedModel (3/10) sample_messages).get
          ⟨0, by decide⟩).message = sample_messages.get ⟨0, by decide⟩ ∧
      ((analyze_messages_sentiment mixedModel (3/10) sample_messages).get
          ⟨0, by decide⟩).comments.map (fun ac => ac.comment) =
        (sample_messages.get ⟨0, by decide⟩).comments ∧
      ((analyze_messages_sentiment mixedModel (3/10) sample_messages).get
          ⟨0, by decide⟩).sentiment_source =
        (if (sample_messages.get ⟨0, by decide⟩).comments.isEmpty then "neutral_default"
         else "comments") ∧
      ∀ ac ∈ ((analyze_messages_sentiment mixedModel (3/10) sample_messages).get
          ⟨0, by decide⟩).comments,
        ac.sentiment = analyze_sentiment mixedModel ac.comment.text ∧
        ac.dominant_sentiment =
          get_dominant_sentiment (analyze_sentiment mixedModel ac.comment.text) ∧
        ac.is_negative = is_negative (analyze_sentiment mixedModel ac.comment.text))) :=
  ⟨⟨by decide, by decide⟩,
   (analyze_messages_order_and_fields mixedModel (3/10) sample_messages).1,
   (analyze_messages_order_and_fields mixedModel (3/10) sample_messages).2 0
     (by decide) (by decide)⟩

/-- C10: on every annotation path, a `true` negativity verdict comes with
dominant sentiment `"negative"`: forced together in the escalation branch,
and implied by strict dominance of the negative score (the `is_negative`
condition) everywhere argmax is used. -/
theorem negative_verdict_dominant_invariant (model : List Char → Scores) (t : ℚ)
    (messages : List Message) :
    ∀ am ∈ analyze_messages_sentiment model t messages,
      (am.is_negative = true → am.dominant_sentiment = "negative") ∧
      ∀ ac ∈ am.comments, ac.is_negative = true → ac.dominant_sentiment = "negative" := by
  intro am ham
  obtain ⟨m, _, rfl⟩ := List.mem_map.mp ham
  constructor
  · intro hneg
    exact determine_negative_dominant model t m.comments hneg
  · intro ac hac
    have hac' : ac ∈ m.comments.map (analyze_comment model) := hac
    obtain ⟨c, _, rfl⟩ := List.mem_map.mp hac'
    intro hneg
    exact dominant_of_is_negative hneg

theorem negative_verdict_dominant_invariant_witness :
    (analyze_message mixedModel (3/10) { text := "p".toList, comments := mixedComments } ∈
        analyze_messages_sentiment mixedModel (3/10) sample_messages ∧
      (analyze_message mixedModel (3/10)
          { text := "p".toList, comments := mixedComments }).is_negative = true) ∧
    (((analyze_message mixedModel (3/10)
          { text := "p".toList, comments := mixedComments }).is_negative = true →
      (analyze_message mixedModel (3/10)
          { text := "p".toList, comments := mixedComments }).dominant_sentiment =
        "negative") ∧
     ∀ ac ∈ (analyze_message mixedModel (3/10)
         { text := "p".toList, comments := mixedComments }).comments,
       ac.is_negative = true → ac.dominant_sentiment = "negative") :=
  ⟨⟨by decide, by decide⟩,
   negative_verdict_dominant_invariant mixedModel (3/10) sample_messages
     (analyze_message mixedModel (3/10) { text := "p".toList, comments := mixedComments })
     (by decide)⟩

end NewsAnalyzer
